import Mathlib

/-!
Verification of the authentication and session core of the backend
(src/main.py): Telegram widget signature verification, the JWT session
token codec, the find-or-create user store, and the wallet-update
endpoint. Python functions are shallowly embedded as executable Lean
definitions; byte strings are lists of naturals below 256, machine
words are naturals reduced modulo two to the 32.
-/

/-! ## Bytes and decimal rendering

`pyStrOfInt` and `pyIntOfString` model the Python built-ins `str` and
`int` on integers: `str` renders the decimal form with a leading minus
sign for negatives, and `int` accepts an optional sign followed by a
nonempty run of ASCII digits (the forms relevant to this code, which
only ever parses its own `str` output).
-/

/-- UTF-8 bytes of a string, as naturals. Models Python `s.encode()`. -/
def strBytes (s : String) : List Nat :=
  s.toUTF8.toList.map (fun b => b.toNat)

/-- The ASCII digit character for a value below ten. -/
def digitChar (d : Nat) : Char := Char.ofNat (48 + d)

/-- Little-endian decimal digits of a natural number. -/
def natDigitsRev (n : Nat) : List Nat :=
  if n < 10 then [n] else n % 10 :: natDigitsRev (n / 10)
termination_by n
decreasing_by exact Nat.div_lt_self (by omega) (by omega)

/-- Decimal rendering of a natural number, modelling Python `str` on a
nonnegative int. -/
def pyStrOfNat (n : Nat) : String :=
  String.mk ((natDigitsRev n).reverse.map digitChar)

/-- Decimal rendering of an integer, modelling Python `str(i)`. -/
def pyStrOfInt (i : Int) : String :=
  if i < 0 then "-" ++ pyStrOfNat i.natAbs else pyStrOfNat i.toNat

/-- The value of an ASCII digit character, if it is one. -/
def digitVal (c : Char) : Option Nat :=
  if 48 ≤ c.toNat ∧ c.toNat ≤ 57 then some (c.toNat - 48) else none

/-- Accumulating big-endian decimal parser over characters. -/
def parseDigitsAux (acc : Nat) : List Char → Option Nat
  | [] => some acc
  | c :: cs =>
    match digitVal c with
    | none => none
    | some d => parseDigitsAux (10 * acc + d) cs

/-- Parse a nonempty all-digit character list as a natural number. -/
def parseNatChars (l : List Char) : Option Nat :=
  if l = [] then none else parseDigitsAux 0 l

/-- Model of Python `int(s)` on an optional sign followed by decimal
digits; any other shape raises ValueError, modelled as `none`. -/
def pyIntOfString (s : String) : Option Int :=
  if s.data.headD ' ' = '-' then (parseNatChars s.data.tail).map (fun n => -(Int.ofNat n))
  else if s.data.headD ' ' = '+' then (parseNatChars s.data.tail).map (fun n => Int.ofNat n)
  else (parseNatChars s.data).map (fun n => Int.ofNat n)

theorem natDigitsRev_ne_nil (n : Nat) : natDigitsRev n ≠ [] := by
  rw [natDigitsRev]
  split <;> simp

theorem natDigitsRev_lt (n : Nat) : ∀ d ∈ natDigitsRev n, d < 10 := by
  induction n using Nat.strong_induction_on with
  | _ n ih =>
    rw [natDigitsRev]
    by_cases h : n < 10
    · rw [if_pos h]; intro d hd; simp at hd; omega
    · rw [if_neg h]
      intro d hd
      simp at hd
      rcases hd with h1 | h2
      · omega
      · exact ih (n / 10) (Nat.div_lt_self (by omega) (by omega)) d h2

theorem digitVal_digitChar (d : Nat) (h : d < 10) :
    digitVal (digitChar d) = some d := by
  interval_cases d <;> rfl

theorem parseDigitsAux_append (acc : Nat) (l1 l2 : List Char) :
    parseDigitsAux acc (l1 ++ l2) =
      (parseDigitsAux acc l1).bind (fun a => parseDigitsAux a l2) := by
  induction l1 generalizing acc with
  | nil => rfl
  | cons c cs ih =>
    simp only [List.cons_append, parseDigitsAux]
    cases digitVal c with
    | none => rfl
    | some d => exact ih _

theorem parseDigitsAux_digits (n : Nat) : ∀ acc,
    parseDigitsAux acc ((natDigitsRev n).reverse.map digitChar) =
      some (acc * 10 ^ (natDigitsRev n).length + n) := by
  induction n using Nat.strong_induction_on with
  | _ n ih =>
    intro acc
    rw [natDigitsRev]
    by_cases h : n < 10
    · rw [if_pos h]
      simp [parseDigitsAux, digitVal_digitChar n h, Nat.mul_comm]
    · rw [if_neg h]
      have hd : n / 10 < n := Nat.div_lt_self (by omega) (by omega)
      simp only [List.reverse_cons, List.map_append, List.map_cons, List.map_nil,
        parseDigitsAux_append, ih (n / 10) hd acc]
      simp only [Option.bind_some, parseDigitsAux,
        digitVal_digitChar (n % 10) (by omega), List.length_cons]
      have : 10 * (acc * 10 ^ (natDigitsRev (n / 10)).length + n / 10) + n % 10 =
          acc * 10 ^ ((natDigitsRev (n / 10)).length + 1) + n := by
        rw [pow_succ, ← Nat.mul_assoc]; omega
      simp [this]

theorem parseNatChars_digits (n : Nat) :
    parseNatChars ((natDigitsRev n).reverse.map digitChar) = some n := by
  rw [parseNatChars]
  have hne : (natDigitsRev n).reverse.map digitChar ≠ [] := by
    simp [natDigitsRev_ne_nil n]
  rw [if_neg hne, parseDigitsAux_digits n 0]
  simp

theorem pyStrOfNat_head (n : Nat) :
    ∃ d l, d < 10 ∧ (pyStrOfNat n).data = digitChar d :: l := by
  rw [pyStrOfNat]
  rcases hl : (natDigitsRev n).reverse with _ | ⟨x, xs⟩
  · exact absurd (List.reverse_eq_nil_iff.mp hl) (natDigitsRev_ne_nil n)
  · refine ⟨x, xs.map digitChar, ?_, rfl⟩
    have : x ∈ natDigitsRev n := by
      have : x ∈ (natDigitsRev n).reverse := by rw [hl]; simp
      simpa using this
    exact natDigitsRev_lt n x this

theorem digitChar_ne_dash (d : Nat) (h : d < 10) :
    digitChar d ≠ '-' ∧ digitChar d ≠ '+' := by
  interval_cases d <;> refine ⟨by decide, by decide⟩

/-- Round trip of the decimal codec: Python `int(str(i)) == i`. -/
theorem pyIntOfString_pyStrOfInt (i : Int) :
    pyIntOfString (pyStrOfInt i) = some i := by
  by_cases hneg : i < 0
  · rw [pyStrOfInt, if_pos hneg, pyIntOfString]
    have hdata : ("-" ++ pyStrOfNat i.natAbs).data = '-' :: (pyStrOfNat i.natAbs).data := by
      simp
    rw [hdata]
    simp only [List.headD_cons, List.tail_cons]
    rw [if_pos trivial]
    have hs : (pyStrOfNat i.natAbs).data = (natDigitsRev i.natAbs).reverse.map digitChar := rfl
    rw [hs, parseNatChars_digits]
    rw [Option.map_some']
    refine congrArg some ?_
    simp only [Int.ofNat_eq_coe]
    omega
  · rw [pyStrOfInt, if_neg hneg, pyIntOfString]
    obtain ⟨d, l, hd, hdata⟩ := pyStrOfNat_head i.toNat
    obtain ⟨h1, h2⟩ := digitChar_ne_dash d hd
    rw [hdata]
    simp only [List.headD_cons]
    rw [if_neg h1, if_neg h2, ← hdata]
    have hs : (pyStrOfNat i.toNat).data = (natDigitsRev i.toNat).reverse.map digitChar := rfl
    rw [hs, parseNatChars_digits]
    rw [Option.map_some']
    refine congrArg some ?_
    simp only [Int.ofNat_eq_coe]
    omega

/-! ## SHA-256 and HMAC-SHA256

Executable model of `hashlib.sha256` and `hmac.new(..., hashlib.sha256)`
per FIPS 180-4 and RFC 2104, over byte lists. -/

/-- Two to the 32, the word modulus. -/
def M32 : Nat := 4294967296

/-- Word addition modulo two to the 32. -/
def add32 (a b : Nat) : Nat := (a + b) % M32

/-- Right rotation of a 32-bit word. -/
def rotr32 (x n : Nat) : Nat := x / 2 ^ n + x % 2 ^ n * 2 ^ (32 - n)

/-- Bitwise complement of a 32-bit word. -/
def not32 (x : Nat) : Nat := 4294967295 - x

/-- The SHA-256 round constants. -/
def shaK : List Nat :=
  [1116352408, 1899447441, 3049323471, 3921009573, 961987163,
   1508970993, 2453635748, 2870763221, 3624381080, 310598401,
   607225278, 1426881987, 1925078388, 2162078206, 2614888103,
   3248222580, 3835390401, 4022224774, 264347078, 604807628,
   770255983, 1249150122, 1555081692, 1996064986, 2554220882,
   2821834349, 2952996808, 3210313671, 3336571891, 3584528711,
   113926993, 338241895, 666307205, 773529912, 1294757372,
   1396182291, 1695183700, 1986661051, 2177026350, 2456956037,
   2730485921, 2820302411, 3259730800, 3345764771, 3516065817,
   3600352804, 4094571909, 275423344, 430227734, 506948616,
   659060556, 883997877, 958139571, 1322822218, 1537002063,
   1747873779, 1955562222, 2024104815, 2227730452, 2361852424,
   2428436474, 2756734187, 3204031479, 3329325298]

/-- The eight SHA-256 working variables. -/
structure Sha256State where
  a : Nat
  b : Nat
  c : Nat
  d : Nat
  e : Nat
  f : Nat
  g : Nat
  h : Nat

/-- The SHA-256 initial hash value. -/
def shaInit : Sha256State :=
  ⟨1779033703, 3144134277, 1013904242, 2773480762, 1359893119, 2600822924, 528734635, 1541459225⟩

/-- A big-endian 32-bit word from four bytes. -/
def wordOfBytes (b0 b1 b2 b3 : Nat) : Nat := ((b0 * 256 + b1) * 256 + b2) * 256 + b3

/-- Group a byte list into big-endian 32-bit words. -/
def toWords : List Nat → List Nat
  | b0 :: b1 :: b2 :: b3 :: rest => wordOfBytes b0 b1 b2 b3 :: toWords rest
  | _ => []

/-- Small sigma zero of the message schedule. -/
def ssig0 (x : Nat) : Nat := Nat.xor (Nat.xor (rotr32 x 7) (rotr32 x 18)) (x / 2 ^ 3)

/-- Small sigma one of the message schedule. -/
def ssig1 (x : Nat) : Nat := Nat.xor (Nat.xor (rotr32 x 17) (rotr32 x 19)) (x / 2 ^ 10)

/-- Extend the sixteen block words to the sixty-four schedule words. -/
def scheduleW : Nat → Array Nat → Array Nat
  | 0, ws => ws
  | fuel + 1, ws =>
    let i := ws.size
    let x := add32 (add32 (ws.getD (i - 16) 0) (ssig0 (ws.getD (i - 15) 0)))
                   (add32 (ws.getD (i - 7) 0) (ssig1 (ws.getD (i - 2) 0)))
    scheduleW fuel (ws.push x)

/-- One SHA-256 compression round for a constant-word pair. -/
def shaRound (st : Sha256State) (kw : Nat × Nat) : Sha256State :=
  let s1 := Nat.xor (Nat.xor (rotr32 st.e 6) (rotr32 st.e 11)) (rotr32 st.e 25)
  let ch := Nat.xor (Nat.land st.e st.f) (Nat.land (not32 st.e) st.g)
  let temp1 := add32 (add32 (add32 st.h s1) (add32 ch kw.1)) kw.2
  let s0 := Nat.xor (Nat.xor (rotr32 st.a 2) (rotr32 st.a 13)) (rotr32 st.a 22)
  let maj := Nat.xor (Nat.xor (Nat.land st.a st.b) (Nat.land st.a st.c)) (Nat.land st.b st.c)
  let temp2 := add32 s0 maj
  ⟨add32 temp1 temp2, st.a, st.b, st.c, add32 st.d temp1, st.e, st.f, st.g⟩

/-- Process one 64-byte block. -/
def processBlock (st : Sha256State) (block : List Nat) : Sha256State :=
  let ws := scheduleW 48 (Array.mk (toWords block))
  let t := (shaK.zip ws.toList).foldl shaRound st
  ⟨add32 st.a t.a, add32 st.b t.b, add32 st.c t.c, add32 st.d t.d,
   add32 st.e t.e, add32 st.f t.f, add32 st.g t.g, add32 st.h t.h⟩

/-- Split a list into chunks of sixty-four, driven by fuel. -/
def chunks64 : Nat → List Nat → List (List Nat)
  | _, [] => []
  | 0, _ => []
  | fuel + 1, l => l.take 64 :: chunks64 fuel (l.drop 64)

/-- Big-endian eight-byte rendering of a natural (the bit-length field). -/
def be8 (n : Nat) : List Nat :=
  [n / 2 ^ 56 % 256, n / 2 ^ 48 % 256, n / 2 ^ 40 % 256, n / 2 ^ 32 % 256,
   n / 2 ^ 24 % 256, n / 2 ^ 16 % 256, n / 2 ^ 8 % 256, n % 256]

/-- Big-endian four-byte rendering of a 32-bit word. -/
def be4 (n : Nat) : List Nat := [n / 2 ^ 24 % 256, n / 2 ^ 16 % 256, n / 2 ^ 8 % 256, n % 256]

/-- SHA-256 padding: a one bit, zeros to fifty-six modulo sixty-four,
then the bit length in eight big-endian bytes. -/
def sha256Pad (msg : List Nat) : List Nat :=
  msg ++ [128] ++ List.replicate ((120 - (msg.length + 1) % 64) % 64) 0 ++ be8 (8 * msg.length)

/-- The digest bytes of a final state. -/
def digestBytes (st : Sha256State) : List Nat :=
  be4 st.a ++ be4 st.b ++ be4 st.c ++ be4 st.d ++ be4 st.e ++ be4 st.f ++ be4 st.g ++ be4 st.h

/-- SHA-256 of a byte list, modelling `hashlib.sha256(data).digest()`. -/
def sha256 (msg : List Nat) : List Nat :=
  let padded := sha256Pad msg
  digestBytes ((chunks64 padded.length padded).foldl processBlock shaInit)

/-- HMAC-SHA256 per RFC 2104, modelling `hmac.new(key, msg, hashlib.sha256).digest()`. -/
def hmacSha256 (key msg : List Nat) : List Nat :=
  let k0 := if 64 < key.length then sha256 key else key
  let kp := k0 ++ List.replicate (64 - k0.length) 0
  sha256 (kp.map (Nat.xor 92) ++ sha256 (kp.map (Nat.xor 54) ++ msg))

/-- The lowercase hex character of a value below sixteen. -/
def hexChar (d : Nat) : Char := if d < 10 then Char.ofNat (48 + d) else Char.ofNat (87 + d)

/-- Lowercase hex rendering of a byte list, modelling `.hexdigest()`. -/
def bytesToHexString (l : List Nat) : String :=
  String.mk (l.foldr (fun b acc => hexChar (b / 16) :: hexChar (b % 16) :: acc) [])

theorem digestBytes_length (st : Sha256State) : (digestBytes st).length = 32 := rfl

theorem sha256_length (msg : List Nat) : (sha256 msg).length = 32 :=
  digestBytes_length _

theorem hexFold_length (l : List Nat) :
    (l.foldr (fun b acc => hexChar (b / 16) :: hexChar (b % 16) :: acc) []).length
      = 2 * l.length := by
  induction l with
  | nil => rfl
  | cons b bs ih =>
    simp only [List.foldr_cons, List.length_cons, ih]
    omega

theorem bytesToHexString_length (l : List Nat) :
    (bytesToHexString l).length = 2 * l.length := by
  have h := hexFold_length l
  simpa [bytesToHexString, String.length] using h

/-! ## Telegram widget verification

Embedding of `verify_telegram_auth` (src/main.py lines 120 to 152). The
auth payload is a Python dict from string keys to values that are ints,
strings or None, exactly the shapes `TelegramAuthData.dict()` produces. -/

/-- A Python value occurring in the Telegram auth dict. -/
inductive PyVal where
  | vInt (i : Int)
  | vStr (s : String)
  | vNone
deriving DecidableEq, Repr

/-- Rendering of a value in an f-string, as `f"{key}={value}"` does:
ints in decimal, strings as themselves, None as the word None. -/
def pyRepr : PyVal → String
  | .vInt i => pyStrOfInt i
  | .vStr s => s
  | .vNone => "None"

/-- Python truthiness on the values at hand: empty string, zero and
None are falsy. -/
def pyFalsy : PyVal → Bool
  | .vInt i => i == 0
  | .vStr s => s == ""
  | .vNone => true

/-- Python `!=` between a string and an arbitrary value: values of a
different runtime type are always unequal. -/
def pyNeStrVal (s : String) : PyVal → Bool
  | .vStr t => s != t
  | _ => true

/-- The int carried by a value, if it is an int; arithmetic on any
other shape raises TypeError. -/
def asInt : PyVal → Option Int
  | .vInt i => some i
  | _ => none

/-- Python exceptions this embedding distinguishes. -/
inductive PyExc where
  | typeError
  | valueError
deriving DecidableEq, Repr

/-- Model of `auth_data.pop(k, None)`: the looked-up value and the dict
without that key. -/
def py_pop (d : List (String × PyVal)) (k : String) :
    Option PyVal × List (String × PyVal) :=
  ((d.find? (fun p => p.1 == k)).map (fun p => p.2), d.filter (fun p => p.1 != k))

/-- Model of `dict.get(k, dflt)`. -/
def lookupD (d : List (String × PyVal)) (k : String) (dflt : PyVal) : PyVal :=
  ((d.find? (fun p => p.1 == k)).map (fun p => p.2)).getD dflt

/-- Lexicographic code-point comparison of character lists, exactly
the Python string `<`. -/
def charsLt : List Char → List Char → Bool
  | [], [] => false
  | [], _ :: _ => true
  | _ :: _, [] => false
  | a :: as, b :: bs =>
    if a.toNat < b.toNat then true
    else if b.toNat < a.toNat then false
    else charsLt as bs

/-- Python string comparison `s < t`. -/
def pyStrLt (s t : String) : Bool := charsLt s.data t.data

/-- Insert a pair into a key-sorted list, keeping it sorted. -/
def insertPair (p : String × PyVal) : List (String × PyVal) → List (String × PyVal)
  | [] => [p]
  | q :: qs => if pyStrLt p.1 q.1 then p :: q :: qs else q :: insertPair p qs

/-- Model of Python `sorted(d.items())` on a dict with distinct keys:
sort the pairs lexicographically by key. -/
def sortPairs (l : List (String × PyVal)) : List (String × PyVal) :=
  l.foldr insertPair []

/-- Embedding of `verify_telegram_auth(auth_data, bot_token)`; `now` is
the value of `int(time.time())` at the call. The result is an `Except`
because Python would raise TypeError if the date arithmetic met a
non-int, though no dict built from `TelegramAuthData` can reach that. -/
def verify_telegram_auth (d : List (String × PyVal)) (bot_token : String) (now : Int) :
    Except PyExc Bool :=
  let popped := py_pop d "hash"
  match popped.1 with
  | none => .ok false
  | some check_hash =>
    if pyFalsy check_hash then .ok false
    else
      let pairs := sortPairs popped.2
      let data_check_string :=
        String.intercalate "\n" (pairs.map (fun p => p.1 ++ "=" ++ pyRepr p.2))
      let secret_key := sha256 (strBytes bot_token)
      let calculated_hash := bytesToHexString (hmacSha256 secret_key (strBytes data_check_string))
      if pyNeStrVal calculated_hash check_hash then .ok false
      else
        match asInt (lookupD popped.2 "auth_date" (.vInt 0)) with
        | none => .error .typeError
        | some auth_date => if now - auth_date > 86400 then .ok false else .ok true

/-- The `TelegramAuthData` pydantic model (src/main.py lines 50 to 57). -/
structure TelegramAuthData where
  id : Int
  first_name : String
  username : Option String
  last_name : Option String
  photo_url : Option String
  auth_date : Int
  hash : String
deriving DecidableEq, Repr

/-- An optional string as the Python value a pydantic dict holds. -/
def optV : Option String → PyVal
  | none => .vNone
  | some s => .vStr s

/-- Model of `auth_data.dict()`: the dict in field declaration order,
optional fields present with value None when unset. -/
def authDict (a : TelegramAuthData) : List (String × PyVal) :=
  [("id", .vInt a.id), ("first_name", .vStr a.first_name), ("username", optV a.username),
   ("last_name", optV a.last_name), ("photo_url", optV a.photo_url),
   ("auth_date", .vInt a.auth_date), ("hash", .vStr a.hash)]

/-- Rendering of an optional field in the check string. -/
def optRepr : Option String → String
  | none => "None"
  | some s => s

/-- The data check string: remove `hash`, render each remaining field
as a key=value line, sort the lines by key, join with newline. -/
def telegramCheckString (a : TelegramAuthData) : String :=
  String.intercalate "\n"
    ["auth_date=" ++ pyStrOfInt a.auth_date,
     "first_name=" ++ a.first_name,
     "id=" ++ pyStrOfInt a.id,
     "last_name=" ++ optRepr a.last_name,
     "photo_url=" ++ optRepr a.photo_url,
     "username=" ++ optRepr a.username]

/-- The lowercase hex HMAC-SHA256 digest of the check string, keyed by
the SHA-256 of the bot token. -/
def telegramDigest (bot_token : String) (a : TelegramAuthData) : String :=
  bytesToHexString (hmacSha256 (sha256 (strBytes bot_token)) (strBytes (telegramCheckString a)))

theorem hmacSha256_length (key msg : List Nat) : (hmacSha256 key msg).length = 32 := rfl

theorem telegramDigest_length (bot_token : String) (a : TelegramAuthData) :
    (telegramDigest bot_token a).length = 64 := by
  rw [telegramDigest, bytesToHexString_length, hmacSha256_length]

theorem telegramDigest_ne_empty (bot_token : String) (a : TelegramAuthData) :
    telegramDigest bot_token a ≠ "" := by
  intro h
  have := telegramDigest_length bot_token a
  rw [h] at this
  simp at this

/-- The dict after popping `hash`, in insertion order. -/
def tgRest (a : TelegramAuthData) : List (String × PyVal) :=
  [("id", .vInt a.id), ("first_name", .vStr a.first_name), ("username", optV a.username),
   ("last_name", optV a.last_name), ("photo_url", optV a.photo_url),
   ("auth_date", .vInt a.auth_date)]

theorem py_pop_authDict (a : TelegramAuthData) :
    py_pop (authDict a) "hash" = (some (.vStr a.hash), tgRest a) := rfl

theorem lookupD_auth_date (a : TelegramAuthData) :
    lookupD (tgRest a) "auth_date" (.vInt 0) = .vInt a.auth_date := rfl

theorem checkString_eq (a : TelegramAuthData) :
    String.intercalate "\n" ((sortPairs (tgRest a)).map (fun p => p.1 ++ "=" ++ pyRepr p.2))
      = telegramCheckString a := by
  rcases a with ⟨i, fn, un, ln, pu, ad, hs⟩
  cases un <;> cases ln <;> cases pu <;> rfl

/-- Characterization of `verify_telegram_auth` on a dict built from a
`TelegramAuthData` payload: it returns normally, and accepts exactly a
nonempty hash that equals the expected digest with an auth date at most
86400 seconds before `now`. -/
theorem verify_authDict (a : TelegramAuthData) (bot : String) (now : Int) :
    verify_telegram_auth (authDict a) bot now =
      .ok (!(a.hash == "") && (telegramDigest bot a == a.hash)
            && !(decide (now - a.auth_date > 86400))) := by
  simp only [verify_telegram_auth, py_pop_authDict]
  by_cases hh : a.hash = ""
  · simp [pyFalsy, hh]
  · rw [checkString_eq]
    have hdig : bytesToHexString (hmacSha256 (sha256 (strBytes bot))
        (strBytes (telegramCheckString a))) = telegramDigest bot a := rfl
    rw [hdig]
    simp only [pyFalsy, pyNeStrVal, lookupD_auth_date, asInt]
    by_cases hd : telegramDigest bot a = a.hash
    · by_cases ht : now - a.auth_date > 86400
      · simp [hh, hd, ht]
      · simp [hh, hd, ht]
    · simp [hh, hd]

/-- C1: with a fresh auth date, verification of a Telegram field set
accepts exactly when the provided hash equals the lowercase hex
HMAC-SHA256 digest, keyed by the SHA-256 of the bot token, of the
check string built by removing hash, rendering every remaining field
as a key=value line, sorting by key and joining with newline; and for
a field set that verifies, replacing the hash by any other string is
rejected. -/
theorem c1_telegram_accept_iff_digest (a : TelegramAuthData) (bot : String) (now : Int)
    (h' : String) (hfresh : now - a.auth_date ≤ 86400) (hflip : h' ≠ a.hash) :
    (verify_telegram_auth (authDict a) bot now = .ok true ↔ a.hash = telegramDigest bot a)
    ∧ (a.hash = telegramDigest bot a →
        verify_telegram_auth (authDict { a with hash := h' }) bot now = .ok false) := by
  constructor
  · rw [verify_authDict]
    constructor
    · intro h
      simp only [Except.ok.injEq] at h
      simp only [Bool.and_eq_true, beq_iff_eq, Bool.not_eq_true'] at h
      exact h.1.2.symm
    · intro h
      have hne : a.hash ≠ "" := by
        rw [h]; exact telegramDigest_ne_empty bot a
      simp [hne, h.symm, hfresh, not_lt.mpr hfresh]
  · intro h
    have hset : verify_telegram_auth (authDict { a with hash := h' }) bot now =
        .ok (!(h' == "") && (telegramDigest bot { a with hash := h' } == h')
              && !(decide (now - a.auth_date > 86400))) := verify_authDict _ bot now
    have hsame : telegramDigest bot { a with hash := h' } = telegramDigest bot a := rfl
    rw [hset, hsame]
    have : (telegramDigest bot a == h') = false := by
      rw [← h]
      simp [BEq.beq]
      intro hc
      exact hflip hc.symm
    simp [this]

/-- C2: a Telegram field set whose auth date lies more than 86400
seconds before the verification time is rejected, whatever its hash. -/
theorem c2_telegram_stale_rejected (a : TelegramAuthData) (bot : String) (now : Int)
    (hstale : now - a.auth_date > 86400) :
    verify_telegram_auth (authDict a) bot now = .ok false := by
  rw [verify_authDict]
  simp [hstale]

/-! ## JWT session tokens

Embedding of `create_access_token` and `verify_token` (src/main.py
lines 95 to 118) over the PyJWT HS256 codec. A token is either a well
formed signed claim set or unparseable garbage; the signature is the
HMAC-SHA256 of a serialization of the claims under the server secret,
and decoding verifies the signature and then rejects a token whose
expiry is at or before the current time, exactly the observable
behaviour of `jwt.encode` and `jwt.decode` with algorithm HS256.
Times are seconds since the epoch. -/

/-- The claim set this backend carries: an optional subject string, an
expiry and an issued-at time. -/
structure JwtClaims where
  sub : Option String
  exp : Nat
  iat : Nat
deriving DecidableEq, Repr

/-- The serialization of the claims that the signature covers. -/
def serializeClaims (c : JwtClaims) : List Nat :=
  strBytes ("sub=" ++ optRepr c.sub ++ "&exp=" ++ pyStrOfNat c.exp ++ "&iat=" ++ pyStrOfNat c.iat)

/-- A presented token: a signed claim set, or a string that does not
even parse as a JWT. -/
inductive PyToken where
  | signed (claims : JwtClaims) (sig : List Nat)
  | garbage (s : String)
deriving DecidableEq, Repr

/-- Exceptions raised by `jwt.decode`. -/
inductive JwtExc where
  | expiredSignature
  | invalidToken
deriving DecidableEq, Repr

/-- Model of `jwt.decode(token, SECRET_KEY, algorithms=["HS256"])`:
reject a malformed token or a wrong signature, raise
ExpiredSignatureError when the expiry is at or before now, otherwise
return the claims. -/
def jwt_decode (t : PyToken) (key : List Nat) (now : Nat) : Except JwtExc JwtClaims :=
  match t with
  | .garbage _ => .error .invalidToken
  | .signed c sig =>
    if sig = hmacSha256 key (serializeClaims c) then
      if c.exp ≤ now then .error .expiredSignature else .ok c
    else .error .invalidToken

/-- Embedding of `create_access_token(telegram_id)` with the default
seven-day expiry: claims with subject `str(telegram_id)`, signed under
the server secret. `now` is the issuance time. -/
def create_access_token (telegram_id : Int) (now : Nat) (key : List Nat) : PyToken :=
  let claims : JwtClaims := { sub := some (pyStrOfInt telegram_id), exp := now + 7 * 86400,
                              iat := now }
  .signed claims (hmacSha256 key (serializeClaims claims))

/-- Embedding of `verify_token(token)`: decode, then take
`int(payload.get("sub"))`. ExpiredSignatureError, decode errors and
ValueError are caught and yield None; `int(None)` on a decoded payload
with no subject raises TypeError, which no handler catches. -/
def verify_token (t : PyToken) (key : List Nat) (now : Nat) : Except PyExc (Option Int) :=
  match jwt_decode t key now with
  | .error .expiredSignature => .ok none
  | .error .invalidToken => .ok none
  | .ok payload =>
    match payload.sub with
    | none => .error .typeError
    | some s =>
      match pyIntOfString s with
      | some n => .ok (some n)
      | none => .ok none

/-- Resolving a freshly issued token before its expiry returns the
subject it was issued for. -/
theorem verify_create_ok (telegram_id : Int) (key : List Nat) (iss chk : Nat)
    (h : chk < iss + 7 * 86400) :
    verify_token (create_access_token telegram_id iss key) key chk = .ok (some telegram_id) := by
  rw [verify_token, create_access_token, jwt_decode]
  rw [if_pos rfl, if_neg (by simp only []; omega)]
  simp only
  rw [pyIntOfString_pyStrOfInt]

/-- Decoding an issued token at or after its expiry raises
ExpiredSignatureError, and `verify_token` maps that to None. -/
theorem verify_create_expired (telegram_id : Int) (key : List Nat) (iss chk : Nat)
    (h : iss + 7 * 86400 ≤ chk) :
    jwt_decode (create_access_token telegram_id iss key) key chk = .error .expiredSignature
    ∧ verify_token (create_access_token telegram_id iss key) key chk = .ok none := by
  have hdec : jwt_decode (create_access_token telegram_id iss key) key chk
      = .error .expiredSignature := by
    rw [create_access_token, jwt_decode]
    rw [if_pos rfl, if_pos (by simp only []; omega)]
  refine ⟨hdec, ?_⟩
  rw [verify_token, hdec]

/-! ## The user table and the endpoints

A database state is the list of stored user rows in insertion order;
the `User` model (src/main.py lines 35 to 45) has a unique
`telegram_id` and nullable text columns. Queries with
`.filter(User.telegram_id == x).first()` are `List.find?`. -/

/-- A row of the `users` table. -/
structure UserRec where
  telegram_id : Int
  username : Option String
  first_name : Option String
  last_name : Option String
  photo_url : Option String
  wallet : Option String
deriving DecidableEq, Repr

/-- Apply `f` to the first row with the given telegram id, the row the
ORM query would return and the handlers mutate. -/
def updateFirst (db : List UserRec) (i : Int) (f : UserRec → UserRec) : List UserRec :=
  match db with
  | [] => []
  | u :: us => if u.telegram_id = i then f u :: us else u :: updateFirst us i f

/-- The row `telegram_login` inserts for a new user: asserted display
fields, wallet unset. -/
def tgNewUser (a : TelegramAuthData) : UserRec :=
  { telegram_id := a.id
    username := a.username
    first_name := some a.first_name
    last_name := a.last_name
    photo_url := a.photo_url
    wallet := none }

/-- The overwrite `telegram_login` applies to an existing row: the four
display fields take the asserted values, all else is untouched. -/
def tgUpdateUser (a : TelegramAuthData) (u : UserRec) : UserRec :=
  { u with
    username := a.username
    first_name := some a.first_name
    last_name := a.last_name
    photo_url := a.photo_url }

/-- The store step of `telegram_login` (src/main.py lines 197 to 218):
look the asserted id up; insert a fresh row if absent, else update the
display fields of the found row. -/
def tg_find_or_create (db : List UserRec) (a : TelegramAuthData) : List UserRec :=
  match db.find? (fun u => u.telegram_id == a.id) with
  | none => db ++ [tgNewUser a]
  | some _ => updateFirst db a.id (tgUpdateUser a)

/-- Outcome of an endpoint dependency or handler: a row, or an HTTP
error status, or an uncaught Python exception (a 500 in FastAPI). -/
inductive AuthErr where
  | http (status : Nat)
  | pyExc (e : PyExc)
deriving DecidableEq, Repr

/-- Embedding of the `get_current_user` dependency (src/main.py lines
157 to 178): 401 without credentials, 401 when `verify_token` returns
None or zero (Python `if not telegram_id`), 404 when the id is unknown,
else the row. An exception from `verify_token` propagates. -/
def get_current_user (cred : Option PyToken) (db : List UserRec) (key : List Nat) (now : Nat) :
    Except AuthErr UserRec :=
  match cred with
  | none => .error (.http 401)
  | some tok =>
    match verify_token tok key now with
    | .error e => .error (.pyExc e)
    | .ok none => .error (.http 401)
    | .ok (some telegram_id) =>
      if telegram_id = 0 then .error (.http 401)
      else
        match db.find? (fun u => u.telegram_id == telegram_id) with
        | none => .error (.http 404)
        | some u => .ok u

/-- The characters Python `str.isspace()` accepts, which are exactly
what `str.strip()` removes: tab through carriage return, the C1
separators 28 to 31, space, next line 133, no-break space 160, the
Ogham space mark, the Unicode spaces 8192 to 8202, the line and
paragraph separators, narrow no-break space, medium mathematical
space, and ideographic space. -/
def pySpace (c : Char) : Bool :=
  decide ((9 ≤ c.toNat ∧ c.toNat ≤ 13) ∨ (28 ≤ c.toNat ∧ c.toNat ≤ 32)
    ∨ c.toNat = 133 ∨ c.toNat = 160 ∨ c.toNat = 5760
    ∨ (8192 ≤ c.toNat ∧ c.toNat ≤ 8202) ∨ c.toNat = 8232 ∨ c.toNat = 8233
    ∨ c.toNat = 8239 ∨ c.toNat = 8287 ∨ c.toNat = 12288)

/-- Model of Python `str.strip()`: drop whitespace from both ends. -/
def py_strip (s : String) : String :=
  String.mk (((s.data.dropWhile pySpace).reverse.dropWhile pySpace).reverse)

/-- Model of Python `str.startswith(pre)`. -/
def pyStartsWith (s pre : String) : Bool := pre.data.isPrefixOf s.data

/-- Model of Python `len` on a string: the number of characters. -/
def pyLen (s : String) : Nat := s.data.length

/-- Embedding of the `update_wallet` handler (src/main.py lines 254 to
282): trim the asserted wallet, reject with 400 when empty, when not
EQ- or UQ-prefixed, or when shorter than forty characters; otherwise
store it on the row of the current user and return it. The handler
returns the new database state together with the response. -/
def update_wallet (db : List UserRec) (uid : Int) (body : Option String) :
    List UserRec × Except Nat String :=
  let wallet := py_strip (body.getD "")
  if wallet = "" then (db, .error 400)
  else if !(pyStartsWith wallet "EQ" || pyStartsWith wallet "UQ") then (db, .error 400)
  else if pyLen wallet < 40 then (db, .error 400)
  else (updateFirst db uid (fun u => { u with wallet := some wallet }), .ok wallet)

/-- C3: round trip of the session token codec: resolving a token
immediately after it was issued for a telegram id, and generally at
any time before its expiry, yields that same telegram id. -/
theorem c3_token_round_trip (telegram_id : Int) (key : List Nat) (iss chk : Nat)
    (h : chk < iss + 7 * 86400) :
    verify_token (create_access_token telegram_id iss key) key chk = .ok (some telegram_id) :=
  verify_create_ok telegram_id key iss chk h

theorem c3_token_round_trip_witness :
    (0 : Nat) < 0 + 7 * 86400
    ∧ verify_token (create_access_token 5 0 []) [] 0 = .ok (some 5) :=
  ⟨by decide, c3_token_round_trip 5 [] 0 0 (by decide)⟩

/-- C4: resolving an issued token at or after its expiry raises
ExpiredSignatureError inside the decoder and yields None, never the
identity; and the protected-endpoint dependency returns 401 when the
credential is missing and when token resolution yields None, which
covers invalid and expired credentials. -/
theorem c4_expiry_and_401 (telegram_id : Int) (key : List Nat) (iss now : Nat)
    (db : List UserRec) (t : PyToken)
    (hexp : iss + 7 * 86400 ≤ now) (hbad : verify_token t key now = .ok none) :
    jwt_decode (create_access_token telegram_id iss key) key now = .error .expiredSignature
    ∧ verify_token (create_access_token telegram_id iss key) key now = .ok none
    ∧ get_current_user none db key now = .error (.http 401)
    ∧ get_current_user (some t) db key now = .error (.http 401) := by
  obtain ⟨h1, h2⟩ := verify_create_expired telegram_id key iss now hexp
  refine ⟨h1, h2, rfl, ?_⟩
  simp only [get_current_user, hbad]

theorem c4_expiry_and_401_witness :
    (0 + 7 * 86400 ≤ 604800)
    ∧ verify_token (PyToken.garbage "x") [] 604800 = .ok none
    ∧ (jwt_decode (create_access_token 1 0 []) [] 604800 = .error .expiredSignature
        ∧ verify_token (create_access_token 1 0 []) [] 604800 = .ok none
        ∧ get_current_user none [] [] 604800 = .error (.http 401)
        ∧ get_current_user (some (PyToken.garbage "x")) [] [] 604800 = .error (.http 401)) :=
  ⟨by decide, rfl, c4_expiry_and_401 1 [] 0 604800 [] (PyToken.garbage "x") (by decide) rfl⟩

/-- C9: a correctly signed, unexpired token issued for subject zero
resolves to zero, yet the dependency rejects it with 401 because
Python `if not telegram_id` treats zero like a failed resolution. -/
theorem c9_zero_subject_rejected (key : List Nat) (iss chk : Nat) (db : List UserRec)
    (h : chk < iss + 7 * 86400) :
    verify_token (create_access_token 0 iss key) key chk = .ok (some 0)
    ∧ get_current_user (some (create_access_token 0 iss key)) db key chk
        = .error (.http 401) := by
  have hv := verify_create_ok 0 key iss chk h
  refine ⟨hv, ?_⟩
  simp [get_current_user, hv]

theorem c9_zero_subject_rejected_witness :
    (0 : Nat) < 0 + 7 * 86400
    ∧ (verify_token (create_access_token 0 0 []) [] 0 = .ok (some 0)
        ∧ get_current_user (some (create_access_token 0 0 [])) [] [] 0 = .error (.http 401)) :=
  ⟨by decide, c9_zero_subject_rejected [] 0 0 [] (by decide)⟩

/-- A claim set with no subject, unexpired at time zero. -/
def noSubClaims : JwtClaims := { sub := none, exp := 1, iat := 0 }

/-- A token with no subject claim, validly signed under the empty key. -/
def noSubToken : PyToken := .signed noSubClaims (hmacSha256 [] (serializeClaims noSubClaims))

/-- C8 counterexample: on a validly signed, unexpired token whose
payload has no sub claim, `verify_token` does not return: `int(None)`
raises TypeError and no handler catches it. -/
theorem c8_counterexample_typeerror :
    verify_token noSubToken [] 0 = .error .typeError := by
  have hdec : jwt_decode noSubToken [] 0 = .ok noSubClaims := by
    rw [noSubToken, jwt_decode, if_pos rfl, if_neg (by decide)]
  rw [verify_token, hdec]
  rfl

/-- The one input shape on which `verify_token` raises: a validly
signed token, not yet expired, whose payload lacks the sub claim. -/
def tokenRaisesTypeError (t : PyToken) (key : List Nat) (now : Nat) : Prop :=
  ∃ c sig, t = .signed c sig ∧ sig = hmacSha256 key (serializeClaims c)
    ∧ now < c.exp ∧ c.sub = none

/-- Whether a call returned normally rather than raising. -/
def exceptOk : Except PyExc (Option Int) → Bool
  | .ok _ => true
  | .error _ => false

/-- C8 amended: `verify_token` returns normally, an integer subject or
None, on every input except a validly signed unexpired token whose
payload lacks a sub claim, where `int(None)` raises an uncaught
TypeError. -/
theorem c8_total_unless_missing_sub (t : PyToken) (key : List Nat) (now : Nat)
    (h : ¬ tokenRaisesTypeError t key now) :
    exceptOk (verify_token t key now) = true := by
  cases t with
  | garbage s => rfl
  | signed c sig =>
    by_cases hsig : sig = hmacSha256 key (serializeClaims c)
    · by_cases hexp : c.exp ≤ now
      · have hdec : jwt_decode (.signed c sig) key now = .error .expiredSignature := by
          rw [jwt_decode, if_pos hsig, if_pos hexp]
        rw [verify_token, hdec]
        rfl
      · cases hsub : c.sub with
        | none => exact absurd ⟨c, sig, rfl, hsig, by omega, hsub⟩ h
        | some s =>
          have hdec : jwt_decode (.signed c sig) key now = .ok c := by
            rw [jwt_decode, if_pos hsig, if_neg hexp]
          simp only [verify_token, hdec, hsub]
          cases pyIntOfString s <;> rfl
    · have hdec : jwt_decode (.signed c sig) key now = .error .invalidToken := by
        rw [jwt_decode, if_neg hsig]
      rw [verify_token, hdec]
      rfl

theorem c8_total_unless_missing_sub_witness :
    ¬ tokenRaisesTypeError (PyToken.garbage "x") [] 0
    ∧ exceptOk (verify_token (PyToken.garbage "x") [] 0) = true :=
  ⟨by simp [tokenRaisesTypeError],
   c8_total_unless_missing_sub (PyToken.garbage "x") [] 0 (by simp [tokenRaisesTypeError])⟩

/-- Sample Telegram payload for witnesses: empty hash, auth date zero. -/
def tgSample : TelegramAuthData :=
  ⟨1, "A", none, none, none, 0, ""⟩

theorem c1_telegram_accept_iff_digest_witness :
    ((0 : Int) - tgSample.auth_date ≤ 86400) ∧ ("x" ≠ tgSample.hash)
    ∧ ((verify_telegram_auth (authDict tgSample) "b" 0 = .ok true
          ↔ tgSample.hash = telegramDigest "b" tgSample)
        ∧ (tgSample.hash = telegramDigest "b" tgSample →
            verify_telegram_auth (authDict { tgSample with hash := "x" }) "b" 0 = .ok false)) :=
  ⟨by decide, by decide, c1_telegram_accept_iff_digest tgSample "b" 0 "x" (by decide) (by decide)⟩

theorem c2_telegram_stale_rejected_witness :
    ((90000 : Int) - tgSample.auth_date > 86400)
    ∧ verify_telegram_auth (authDict tgSample) "b" 90000 = .ok false :=
  ⟨by decide, c2_telegram_stale_rejected tgSample "b" 90000 (by decide)⟩

theorem find?_append_first (db₁ db₂ : List UserRec) (u : UserRec) (i : Int)
    (hnone : ∀ v ∈ db₁, v.telegram_id ≠ i) (hu : u.telegram_id = i) :
    (db₁ ++ u :: db₂).find? (fun v => v.telegram_id == i) = some u := by
  induction db₁ with
  | nil =>
    simp [List.find?, hu]
  | cons w ws ih =>
    have hw : w.telegram_id ≠ i := hnone w (by simp)
    have hpw : (w.telegram_id == i) = false := by simp [hw]
    simp only [List.cons_append, List.find?, hpw]
    exact ih (fun v hv => hnone v (by simp [hv]))

theorem updateFirst_append (db₁ db₂ : List UserRec) (i : Int) (f : UserRec → UserRec)
    (hnone : ∀ v ∈ db₁, v.telegram_id ≠ i) :
    updateFirst (db₁ ++ db₂) i f = db₁ ++ updateFirst db₂ i f := by
  induction db₁ with
  | nil => rfl
  | cons w ws ih =>
    have hw : w.telegram_id ≠ i := hnone w (by simp)
    simp only [List.cons_append, updateFirst]
    rw [if_neg hw]
    exact congrArg (List.cons w) (ih (fun v hv => hnone v (by simp [hv])))

theorem updateFirst_cons_of_eq (u : UserRec) (us : List UserRec) (i : Int)
    (f : UserRec → UserRec) (h : u.telegram_id = i) :
    updateFirst (u :: us) i f = f u :: us := by
  simp [updateFirst, h]

/-- C5: find-or-create on successful login. If no row carries the
asserted id, exactly one new row is appended, holding the asserted
display fields and no wallet; if a row carries it, that row alone has
its four display fields overwritten with the asserted values while its
telegram id and wallet are untouched, and no row is added. -/
theorem c5_find_or_create_upsert (a : TelegramAuthData) (db₁ db₂ : List UserRec) (u : UserRec)
    (habsent : ∀ v ∈ db₁, v.telegram_id ≠ a.id) (hu : u.telegram_id = a.id) :
    tg_find_or_create db₁ a = db₁ ++ [tgNewUser a]
    ∧ tg_find_or_create (db₁ ++ u :: db₂) a = db₁ ++ tgUpdateUser a u :: db₂
    ∧ (tgUpdateUser a u).wallet = u.wallet
    ∧ (tgUpdateUser a u).telegram_id = u.telegram_id
    ∧ (tgUpdateUser a u).username = a.username
    ∧ (tgUpdateUser a u).first_name = some a.first_name
    ∧ (tgUpdateUser a u).last_name = a.last_name
    ∧ (tgUpdateUser a u).photo_url = a.photo_url := by
  refine ⟨?_, ?_, rfl, rfl, rfl, rfl, rfl, rfl⟩
  · rw [tg_find_or_create]
    have hfind : db₁.find? (fun v => v.telegram_id == a.id) = none := by
      rw [List.find?_eq_none]
      intro v hv
      simp [habsent v hv]
    rw [hfind]
  · rw [tg_find_or_create]
    rw [find?_append_first db₁ db₂ u a.id habsent hu]
    rw [updateFirst_append db₁ (u :: db₂) a.id (tgUpdateUser a) habsent]
    rw [updateFirst_cons_of_eq u db₂ a.id (tgUpdateUser a) hu]

theorem c5_find_or_create_upsert_witness :
    (∀ v ∈ ([] : List UserRec), v.telegram_id ≠ tgSample.id)
    ∧ (⟨1, none, none, none, none, some "EQw"⟩ : UserRec).telegram_id = tgSample.id
    ∧ (tg_find_or_create [] tgSample = [] ++ [tgNewUser tgSample]
        ∧ tg_find_or_create ([] ++ (⟨1, none, none, none, none, some "EQw"⟩ : UserRec) :: []) tgSample
            = [] ++ tgUpdateUser tgSample ⟨1, none, none, none, none, some "EQw"⟩ :: []
        ∧ (tgUpdateUser tgSample ⟨1, none, none, none, none, some "EQw"⟩).wallet
            = (⟨1, none, none, none, none, some "EQw"⟩ : UserRec).wallet
        ∧ (tgUpdateUser tgSample ⟨1, none, none, none, none, some "EQw"⟩).telegram_id
            = (⟨1, none, none, none, none, some "EQw"⟩ : UserRec).telegram_id
        ∧ (tgUpdateUser tgSample ⟨1, none, none, none, none, some "EQw"⟩).username = tgSample.username
        ∧ (tgUpdateUser tgSample ⟨1, none, none, none, none, some "EQw"⟩).first_name
            = some tgSample.first_name
        ∧ (tgUpdateUser tgSample ⟨1, none, none, none, none, some "EQw"⟩).last_name = tgSample.last_name
        ∧ (tgUpdateUser tgSample ⟨1, none, none, none, none, some "EQw"⟩).photo_url
            = tgSample.photo_url) :=
  ⟨by simp, by decide,
   c5_find_or_create_upsert tgSample [] [] ⟨1, none, none, none, none, some "EQw"⟩ (by simp) (by decide)⟩

/-- The wallet strings `update_wallet` rejects: empty after trimming,
not EQ- or UQ-prefixed, or shorter than forty characters. -/
def badWallet (t : String) : Prop :=
  t = "" ∨ (pyStartsWith t "EQ" = false ∧ pyStartsWith t "UQ" = false) ∨ pyLen t < 40

instance (t : String) : Decidable (badWallet t) := by
  unfold badWallet
  infer_instance

theorem update_wallet_char (db : List UserRec) (uid : Int) (w : String) :
    update_wallet db uid (some w)
      = if badWallet (py_strip w) then (db, .error 400)
        else (updateFirst db uid (fun u => { u with wallet := some (py_strip w) }),
              .ok (py_strip w)) := by
  rw [update_wallet]
  simp only [Option.getD_some]
  by_cases h1 : py_strip w = ""
  · rw [if_pos h1, if_pos (by left; exact h1)]
  · rw [if_neg h1]
    by_cases h2 : pyStartsWith (py_strip w) "EQ" || pyStartsWith (py_strip w) "UQ"
    · rw [if_neg (by simp [h2])]
      by_cases h3 : pyLen (py_strip w) < 40
      · rw [if_pos h3, if_pos (by right; right; exact h3)]
      · rw [if_neg h3, if_neg ?_]
        rintro (hc | ⟨hc1, hc2⟩ | hc)
        · exact h1 hc
        · rw [hc1, hc2] at h2; simp at h2
        · exact h3 hc
    · rw [if_pos (by simp [h2])]
      rw [if_pos ?_]
      right; left
      constructor
      · simp only [Bool.or_eq_true, not_or] at h2
        simp [h2.1]
      · simp only [Bool.or_eq_true, not_or] at h2
        simp [h2.2]

/-- C6: the wallet endpoint returns 400 and leaves the database
unchanged exactly when the trimmed wallet is empty, lacks the EQ or UQ
prefix, or is shorter than forty characters; otherwise it stores the
trimmed wallet on the row of the current user and returns it. -/
theorem c6_update_wallet_validation (db : List UserRec) (uid : Int) (w : String) :
    (update_wallet db uid (some w) = (db, .error 400) ↔ badWallet (py_strip w))
    ∧ (¬ badWallet (py_strip w) →
        update_wallet db uid (some w)
          = (updateFirst db uid (fun u => { u with wallet := some (py_strip w) }),
             .ok (py_strip w))) := by
  rw [update_wallet_char]
  by_cases hb : badWallet (py_strip w)
  · rw [if_pos hb]
    exact ⟨by simp [hb], fun hc => absurd hb hc⟩
  · rw [if_neg hb]
    refine ⟨⟨fun hc => absurd (congrArg Prod.snd hc) (by simp), fun hc => absurd hc hb⟩,
            fun _ => rfl⟩

theorem c6_update_wallet_validation_witness :
    (update_wallet [] 0 (some "EQaaaaaaaaaaaaaaaaaaaaaaaaaaaaaaaaaaaaaa") = ([], .error 400)
        ↔ badWallet (py_strip "EQaaaaaaaaaaaaaaaaaaaaaaaaaaaaaaaaaaaaaa"))
    ∧ (¬ badWallet (py_strip "EQaaaaaaaaaaaaaaaaaaaaaaaaaaaaaaaaaaaaaa") →
        update_wallet [] 0 (some "EQaaaaaaaaaaaaaaaaaaaaaaaaaaaaaaaaaaaaaa")
          = (updateFirst [] 0
               (fun u => { u with
                           wallet := some (py_strip "EQaaaaaaaaaaaaaaaaaaaaaaaaaaaaaaaaaaaaaa") }),
             .ok (py_strip "EQaaaaaaaaaaaaaaaaaaaaaaaaaaaaaaaaaaaaaa"))) :=
  c6_update_wallet_validation [] 0 "EQaaaaaaaaaaaaaaaaaaaaaaaaaaaaaaaaaaaaaa"

/-- C10: frame property of a successful wallet update: the row of the
current user changes only in its wallet field, and every other row is
untouched. -/
theorem c10_update_wallet_frame (db₁ db₂ : List UserRec) (u : UserRec) (w : String)
    (hnone : ∀ v ∈ db₁, v.telegram_id ≠ u.telegram_id)
    (hok : ¬ badWallet (py_strip w)) :
    update_wallet (db₁ ++ u :: db₂) u.telegram_id (some w)
      = (db₁ ++ { u with wallet := some (py_strip w) } :: db₂, .ok (py_strip w)) := by
  rw [update_wallet_char, if_neg hok]
  rw [updateFirst_append db₁ (u :: db₂) u.telegram_id _ hnone]
  rw [updateFirst_cons_of_eq u db₂ u.telegram_id _ rfl]

theorem c10_update_wallet_frame_witness :
    (∀ v ∈ ([] : List UserRec), v.telegram_id ≠ (⟨7, none, none, none, none, none⟩ : UserRec).telegram_id)
    ∧ ¬ badWallet (py_strip "UQbbbbbbbbbbbbbbbbbbbbbbbbbbbbbbbbbbbbbb")
    ∧ update_wallet ([] ++ (⟨7, none, none, none, none, none⟩ : UserRec) :: [])
        (⟨7, none, none, none, none, none⟩ : UserRec).telegram_id
        (some "UQbbbbbbbbbbbbbbbbbbbbbbbbbbbbbbbbbbbbbb")
      = ([] ++ ({ (⟨7, none, none, none, none, none⟩ : UserRec) with
                  wallet := some (py_strip "UQbbbbbbbbbbbbbbbbbbbbbbbbbbbbbbbbbbbbbb") } : UserRec) :: [],
         .ok (py_strip "UQbbbbbbbbbbbbbbbbbbbbbbbbbbbbbbbbbbbbbb")) :=
  ⟨by simp, by decide,
   c10_update_wallet_frame [] [] ⟨7, none, none, none, none, none⟩
     "UQbbbbbbbbbbbbbbbbbbbbbbbbbbbbbbbbbbbbbb" (by simp) (by decide)⟩

/-! ## Concurrent first logins

The find-or-create code (src/main.py lines 197 to 211) is two store
round trips: a SELECT by telegram id, then either an INSERT plus
commit or an UPDATE plus commit. Two concurrent logins are modelled as
two such processes whose steps interleave; each step is atomic at the
store. The `users.telegram_id` column is declared `unique=True`, so
the store itself refuses an INSERT that duplicates the id: the
refusing process finishes with an IntegrityError, which no handler in
the code catches. -/

/-- Whether a row with the given id exists, the SELECT of the login. -/
def userExists (db : List UserRec) (i : Int) : Bool :=
  (db.find? (fun u => u.telegram_id == i)).isSome

/-- The state of the two racing logins: the stored table, and for each
process the remembered SELECT result and the final outcome, where
`some true` is a committed request and `some false` an IntegrityError. -/
structure RaceState where
  db : List UserRec
  foundA : Option Bool
  resA : Option Bool
  foundB : Option Bool
  resB : Option Bool
deriving DecidableEq, Repr

/-- One atomic step of a login process: first the SELECT, then the
conditional INSERT (refused by the unique constraint when a row with
the id meanwhile appeared) or the display-field UPDATE. A finished
process does nothing. -/
def loginStep (a : TelegramAuthData) (db : List UserRec) (found : Option Bool)
    (res : Option Bool) : List UserRec × Option Bool × Option Bool :=
  match found with
  | none => (db, some (userExists db a.id), res)
  | some f =>
    match res with
    | some _ => (db, found, res)
    | none =>
      if f then (updateFirst db a.id (tgUpdateUser a), some f, some true)
      else if userExists db a.id then (db, some f, some false)
      else (db ++ [tgNewUser a], some f, some true)

/-- Run one scheduled step: `true` steps process A, `false` process B. -/
def raceStep (aA aB : TelegramAuthData) (s : RaceState) (takeA : Bool) : RaceState :=
  if takeA then
    let r := loginStep aA s.db s.foundA s.resA
    { s with db := r.1, foundA := r.2.1, resA := r.2.2 }
  else
    let r := loginStep aB s.db s.foundB s.resB
    { s with db := r.1, foundB := r.2.1, resB := r.2.2 }

/-- Run a whole schedule of interleaved steps. -/
def runRace (aA aB : TelegramAuthData) (sched : List Bool) (s : RaceState) : RaceState :=
  sched.foldl (raceStep aA aB) s

/-- The initial race state over a stored table. -/
def initRace (db : List UserRec) : RaceState := ⟨db, none, none, none, none⟩

/-- How many stored rows carry the given telegram id. -/
def countId (db : List UserRec) (i : Int) : Nat :=
  (db.filter (fun u => u.telegram_id == i)).length

theorem countId_append (db₁ db₂ : List UserRec) (i : Int) :
    countId (db₁ ++ db₂) i = countId db₁ i + countId db₂ i := by
  simp [countId, List.filter_append]

theorem userExists_false_countId (db : List UserRec) (i : Int)
    (h : userExists db i = false) : countId db i = 0 := by
  induction db with
  | nil => rfl
  | cons u us ih =>
    rw [userExists, List.find?] at h
    rcases hu : (u.telegram_id == i) with _ | _
    · rw [hu] at h
      rw [countId, List.filter]
      rw [hu]
      exact ih (by rw [userExists]; exact h)
    · rw [hu] at h
      simp at h

theorem countId_updateFirst (db : List UserRec) (i j : Int) (a : TelegramAuthData) :
    countId (updateFirst db i (tgUpdateUser a)) j = countId db j := by
  induction db with
  | nil => rfl
  | cons u us ih =>
    rw [updateFirst]
    by_cases h : u.telegram_id = i
    · rw [if_pos h]
      rw [countId, countId, List.filter, List.filter]
      have : (tgUpdateUser a u).telegram_id = u.telegram_id := rfl
      rw [this]
      cases u.telegram_id == j <;> simp
    · rw [if_neg h]
      rw [countId, countId, List.filter, List.filter]
      cases u.telegram_id == j <;> simp [countId] at ih ⊢ <;> omega

theorem raceStep_countId (aA aB : TelegramAuthData) (s : RaceState) (takeA : Bool) (i : Int)
    (hid : aA.id = i) (hidB : aB.id = i) (h : countId s.db i ≤ 1) :
    countId (raceStep aA aB s takeA).db i ≤ 1 := by
  rw [raceStep]
  cases takeA with
  | true =>
    rw [if_pos rfl]
    simp only
    rw [loginStep.eq_def]
    cases s.foundA with
    | none => exact h
    | some f =>
      cases s.resA with
      | some r => exact h
      | none =>
        simp only
        by_cases hf : f
        · rw [if_pos hf]
          simp only
          rw [hid, countId_updateFirst]
          exact h
        · rw [if_neg hf]
          by_cases he : userExists s.db aA.id
          · rw [if_pos he]
            exact h
          · rw [if_neg he]
            simp only
            rw [countId_append]
            have h0 : countId s.db i = 0 := by
              rw [← hid]
              exact userExists_false_countId s.db aA.id (by simpa using he)
            rw [← hid] at h0 ⊢
            rw [h0]
            have : countId [tgNewUser aA] aA.id = 1 := by
              rw [countId, List.filter]
              have : ((tgNewUser aA).telegram_id == aA.id) = true := by
                simp [tgNewUser]
              rw [this]
              rfl
            omega
  | false =>
    rw [if_neg (by simp)]
    simp only
    rw [loginStep.eq_def]
    cases s.foundB with
    | none => exact h
    | some f =>
      cases s.resB with
      | some r => exact h
      | none =>
        simp only
        by_cases hf : f
        · rw [if_pos hf]
          simp only
          rw [hidB, countId_updateFirst]
          exact h
        · rw [if_neg hf]
          by_cases he : userExists s.db aB.id
          · rw [if_pos he]
            exact h
          · rw [if_neg he]
            simp only
            rw [countId_append]
            have h0 : countId s.db aB.id = 0 :=
              userExists_false_countId s.db aB.id (by simpa using he)
            rw [← hidB]
            rw [h0]
            have : countId [tgNewUser aB] aB.id = 1 := by
              rw [countId, List.filter]
              have : ((tgNewUser aB).telegram_id == aB.id) = true := by
                simp [tgNewUser]
              rw [this]
              rfl
            omega

/-- C7 amended: under every interleaving of two concurrent logins
asserting the same external id, the uniqueness constraint keeps the
stored table from ever holding two rows with that id. -/
theorem c7_at_most_one_row (aA aB : TelegramAuthData) (sched : List Bool)
    (db0 : List UserRec) (hid : aB.id = aA.id) (h0 : countId db0 aA.id ≤ 1) :
    countId (runRace aA aB sched (initRace db0)).db aA.id ≤ 1 := by
  rw [runRace]
  have : ∀ (l : List Bool) (s : RaceState), countId s.db aA.id ≤ 1 →
      countId (l.foldl (raceStep aA aB) s).db aA.id ≤ 1 := by
    intro l
    induction l with
    | nil => intro s hs; exact hs
    | cons b bs ih =>
      intro s hs
      rw [List.foldl_cons]
      exact ih _ (raceStep_countId aA aB s b aA.id rfl hid hs)
  exact this sched (initRace db0) h0

theorem c7_at_most_one_row_witness :
    tgSample.id = tgSample.id ∧ countId [] tgSample.id ≤ 1
    ∧ countId (runRace tgSample tgSample [true, false, true, false] (initRace [])).db tgSample.id ≤ 1 :=
  ⟨rfl, by decide, c7_at_most_one_row tgSample tgSample [true, false, true, false] [] rfl (by decide)⟩

/-- C7 counterexample: the interleaving in which both SELECTs run
before both INSERTs makes the second INSERT trip the unique constraint,
so that request ends in an unhandled IntegrityError; in either serial
order both requests commit. The sequence is therefore a naive
check-then-insert, not an atomic find-or-create. -/
theorem c7_counterexample_naive_race :
    (runRace tgSample tgSample [true, false, true, false] (initRace [])).resA = some true
    ∧ (runRace tgSample tgSample [true, false, true, false] (initRace [])).resB = some false
    ∧ (runRace tgSample tgSample [true, true, false, false] (initRace [])).resB = some true
    ∧ (runRace tgSample tgSample [false, false, true, true] (initRace [])).resB = some true := by
  refine ⟨rfl, rfl, rfl, rfl⟩
